import Mathlib

set_option autoImplicit false

/-!
Shallow embedding of `core/controllers/cron.py` (Oppia cron controllers):
the stuck-job status mailer (`JobStatusMailerHandler`), the map/reduce
cleanup reaper (`CronMapreduceCleanupHandler._clean_mapreduce`), and the
auxiliary-entity cleanup job (`_JobCleanupManager`).

Time values are modelled as `Int` milliseconds.  External collaborators
(the job-model datastore, the pipeline registry, the email service) are
modelled as explicit inputs: the environment carries the values their
queries would return, and the result records the side-effecting calls
the handler issues (datastore puts, `cleanup()` calls, job enqueues,
emails sent).
-/

/-- The default retention timeline is 2 days (in milliseconds).
Mirrors `MAX_MAPREDUCE_METADATA_RETENTION_MSECS` in cron.py. -/
def MAX_MAPREDUCE_METADATA_RETENTION_MSECS : Int := 2 * 24 * 60 * 60 * 1000

/-- Name of the additional parameter passed to the MR cleanup job. -/
def MAPPER_PARAM_MAX_START_TIME_MSEC : String := "max_start_time_msec"

/-- The caller-facing facts the `require_cron_or_superadmin` decorator
inspects: whether the `X-AppEngine-Cron` request header is present, and
whether the session user is a super-admin. -/
structure RequestContext where
  has_cron_header : Bool
  is_super_admin : Bool
deriving DecidableEq

/-- The guard of the `require_cron_or_superadmin` decorator: the wrapped
handler runs iff the cron header is present or the caller is a
super-admin; otherwise `UnauthorizedUserException` is raised. -/
def require_cron_or_superadmin (ctx : RequestContext) : Bool :=
  ctx.has_cron_header || ctx.is_super_admin

/-- A stuck job as returned by the collaborator `jobs.get_stuck_jobs`;
only its identity matters to the mailer's counting behaviour, the other
fields are formatted verbatim into the message block. -/
structure StuckJob where
  mapreduce_id : String
deriving DecidableEq

/-- One structural piece of an email body built by the mailer: the
header line stating the failure total and the report cap, one detail
block per enumerated job, or the all-clear line. -/
inductive EmailPart where
  | header (total : Nat) (cap : Nat)
  | job_block (j : StuckJob)
  | all_clear
deriving DecidableEq

/-- Recognises a job detail block in an email body. -/
def is_job_block : EmailPart → Bool
  | EmailPart.job_block _ => true
  | _ => false

/-- An email handed to `email_services.send_mail_to_admin`. -/
structure Email where
  subject : String
  parts : List EmailPart
deriving DecidableEq

/-- Body of `JobStatusMailerHandler.get` after the auth guard: the list
of emails sent in one invocation (the source makes exactly one
`send_mail_to_admin` call).  `failed_jobs` is what the collaborator
`jobs.get_stuck_jobs(TWENTY_FIVE_HOURS_IN_MSECS)` returned. -/
def JobStatusMailerHandler.sent_mail (failed_jobs : List StuckJob) : List Email :=
  let MAX_JOBS_TO_REPORT_ON : Nat := 50
  if failed_jobs.isEmpty then
    [{ subject := "MapReduce status report", parts := [EmailPart.all_clear] }]
  else
    [{ subject := "MapReduce failure alert",
       parts := EmailPart.header failed_jobs.length MAX_JOBS_TO_REPORT_ON ::
         (failed_jobs.take MAX_JOBS_TO_REPORT_ON).map EmailPart.job_block }]

/-- `JobStatusMailerHandler.get`, including its
`require_cron_or_superadmin` decorator: an unauthorized caller gets the
exception, anyone else gets the mail-sending body. -/
def JobStatusMailerHandler.get (ctx : RequestContext) (failed_jobs : List StuckJob) :
    Except String (List Email) :=
  if require_cron_or_superadmin ctx then
    Except.ok (JobStatusMailerHandler.sent_mail failed_jobs)
  else
    Except.error "You do not have the credentials to access this page."

/-- An auxiliary entity handed to `_JobCleanupManager.map`: either a
`mapreduce_model.MapreduceState` (carrying `result_status` and
`start_time`) or a `mapreduce_model.ShardState` (carrying
`result_status` and `update_time`); timestamps already converted to
milliseconds as by `utils.get_time_in_millisecs`. -/
inductive MapReduceEntity where
  | mapreduce_state (result_status : String) (start_time_msec : Int)
  | shard_state (result_status : String) (update_time_msec : Int)
deriving DecidableEq

/-- `_JobCleanupManager.map`: returns whether `item.delete()` was
called and the list of `(key, value)` tallies yielded. -/
def JobCleanupManager.map (max_start_time_msec : Int) :
    MapReduceEntity → Bool × List (String × Nat)
  | MapReduceEntity.mapreduce_state result_status start_time_msec =>
    if result_status = "success" ∧ start_time_msec < max_start_time_msec then
      (true, [("mr_state_deleted", 1)])
    else
      (false, [("mr_state_remaining", 1)])
  | MapReduceEntity.shard_state result_status update_time_msec =>
    if result_status = "success" ∧ update_time_msec < max_start_time_msec then
      (true, [("shard_state_deleted", 1)])
    else
      (false, [("mr_state_remaining", 1)])

/-- Python's `str.endswith`, as a suffix test on the character data. -/
def str_ends_with (key suffix_str : String) : Bool :=
  suffix_str.data.isSuffixOf key.data

/-- `_JobCleanupManager.reduce`: sums the tallies for one key and logs
them as a delete count when the key ends in `_deleted`, and as a
remaining count otherwise.  Returns the log category and the sum. -/
def JobCleanupManager.reduce (key : String) (values : List Nat) : String × Nat :=
  if str_ends_with key "_deleted" then
    ("Delete count", values.sum)
  else
    ("Entities remaining count", values.sum)

/-- A job record as returned by `job_models.JobModel.get_recent_jobs`:
the fields `_clean_mapreduce` reads or writes.  `root_pipeline_id` is
`some pid` when `metadata` contains the key `root_pipeline_id`.
`job_id` identifies the datastore entity a `put()` persists. -/
structure JobModel where
  job_id : Nat
  time_started_msec : Int
  has_been_cleaned_up : Bool
  root_pipeline_id : Option String
deriving DecidableEq

/-- One entry of `pipeline.get_root_list()['pipelines']`: the dict keys
`_clean_mapreduce` reads.  `startTimeMs` is `some t` when the dict has
a `startTimeMs` key.  `from_id_resolves` models whether
`pipeline.Pipeline.from_id(pipelineId)` returns a truthy object. -/
structure PipelineRecord where
  pipelineId : String
  status : String
  currentAttempt : Int
  maxAttempts : Int
  startTimeMs : Option Int
  from_id_resolves : Bool
deriving DecidableEq

/-- The collaborator answers one `_clean_mapreduce` pass consumes:
current time, the result of the bounded recent-jobs query, the root
pipeline list, and whether `do_unfinished_jobs_exist('_JobCleanupManager')`
holds. -/
structure CronEnv where
  now_msec : Int
  recent_jobs : List JobModel
  root_pipelines : List PipelineRecord
  unfinished_cleanup_jobs_exist : Bool
deriving DecidableEq

/-- Lookup in the `pipeline_id_to_job_instance` dict (entries are
prepended, so the first match is the most recent assignment, matching
Python dict overwrite semantics). -/
def dict_lookup (d : List (String × JobModel)) (k : String) : Option JobModel :=
  match d with
  | [] => none
  | (k', v) :: rest => if k' = k then some v else dict_lookup rest k

/-- The first loop of `_clean_mapreduce`: build
`pipeline_id_to_job_instance` from the fetched job records, keeping a
record iff it started before `max_start_time_msec`, has not been
cleaned up, and carries a `root_pipeline_id` in its metadata. -/
def build_pipeline_mapping (jobs : List JobModel) (max_start_time_msec : Int) :
    List (String × JobModel) :=
  jobs.foldl (fun d job_instance =>
    if job_instance.time_started_msec < max_start_time_msec ∧
        job_instance.has_been_cleaned_up = false then
      match job_instance.root_pipeline_id with
      | some pipeline_id => (pipeline_id, job_instance) :: d
      | none => d
    else d) []

/-- `job_definitely_terminated` from the pipeline loop. -/
def job_definitely_terminated (p : PipelineRecord) : Bool :=
  decide (p.status = "done" ∨ p.status = "aborted" ∨ p.currentAttempt > p.maxAttempts)

/-- `have_start_time` from the pipeline loop. -/
def have_start_time (p : PipelineRecord) : Bool :=
  p.startTimeMs.isSome

/-- `job_started_too_long_ago` from the pipeline loop. -/
def job_started_too_long_ago (p : PipelineRecord) (max_start_time_msec : Int) : Bool :=
  match p.startTimeMs with
  | some t => decide (t < max_start_time_msec)
  | none => false

/-- The guard of the cleanup branch:
`job_started_too_long_ago or (not have_start_time and job_definitely_terminated)`. -/
def pipeline_terminable (p : PipelineRecord) (max_start_time_msec : Int) : Bool :=
  job_started_too_long_ago p max_start_time_msec ||
    (!have_start_time p && job_definitely_terminated p)

/-- Mutable state threaded through the pipeline loop: the job datastore
(after the puts so far), the ids put (in order), the pipeline ids
passed to `p.cleanup()` (in order), and `num_cleaned`. -/
structure ReapState where
  jobs_store : List JobModel
  put_job_ids : List Nat
  cleanup_calls : List String
  num_cleaned : Nat
deriving DecidableEq

/-- Persist `has_been_cleaned_up = True` for the record with the given
id (the effect of `job_instance.has_been_cleaned_up = True` followed by
`job_instance.put()` on the datastore). -/
def mark_job (jobs : List JobModel) (jid : Nat) : List JobModel :=
  jobs.map (fun j => if j.job_id = jid then { j with has_been_cleaned_up := true } else j)

/-- One iteration of the pipeline loop of `_clean_mapreduce`. -/
def process_pipeline (mapping : List (String × JobModel)) (max_start_time_msec : Int)
    (s : ReapState) (pline : PipelineRecord) : ReapState :=
  if pipeline_terminable pline max_start_time_msec then
    let s1 : ReapState :=
      match dict_lookup mapping pline.pipelineId with
      | some job_instance =>
        { s with jobs_store := mark_job s.jobs_store job_instance.job_id,
                 put_job_ids := s.put_job_ids ++ [job_instance.job_id] }
      | none => s
    if pline.from_id_resolves then
      { s1 with cleanup_calls := s1.cleanup_calls ++ [pline.pipelineId],
                num_cleaned := s1.num_cleaned + 1 }
    else s1
  else s

/-- The full outcome of one `_clean_mapreduce` pass: the final loop
state plus the `(param, value)` pairs of the aggregator enqueues made
at the end (empty when the single-flight guard fires). -/
structure ReapResult where
  jobs_store : List JobModel
  put_job_ids : List Nat
  cleanup_calls : List String
  num_cleaned : Nat
  enqueued_params : List (String × Int)
deriving DecidableEq

/-- `CronMapreduceCleanupHandler._clean_mapreduce(recency_msec)`. -/
def clean_mapreduce (env : CronEnv) (recency_msec : Int) : ReapResult :=
  let min_age_msec := recency_msec
  let max_start_time_msec := env.now_msec - min_age_msec
  let pipeline_id_to_job_instance :=
    build_pipeline_mapping env.recent_jobs max_start_time_msec
  let s := env.root_pipelines.foldl
    (process_pipeline pipeline_id_to_job_instance max_start_time_msec)
    { jobs_store := env.recent_jobs, put_job_ids := [], cleanup_calls := [],
      num_cleaned := 0 }
  let enqueued :=
    if env.unfinished_cleanup_jobs_exist then []
    else [(MAPPER_PARAM_MAX_START_TIME_MSEC, max_start_time_msec)]
  { jobs_store := s.jobs_store, put_job_ids := s.put_job_ids,
    cleanup_calls := s.cleanup_calls, num_cleaned := s.num_cleaned,
    enqueued_params := enqueued }

/-- `CronMapreduceCleanupHandler.get`: in the source this handler has
no `require_cron_or_superadmin` decorator (unlike the mailer handler),
so the body runs for every caller. -/
def CronMapreduceCleanupHandler.get (_ctx : RequestContext) (env : CronEnv) :
    Except String ReapResult :=
  Except.ok (clean_mapreduce env MAX_MAPREDUCE_METADATA_RETENTION_MSECS)

/-! Characterisation of the pipeline loop. -/

/-- The pipeline ids passed to `cleanup()` by one pass, in order: the
ids of the terminable pipelines whose `Pipeline.from_id` resolves. -/
def terminable_resolvable_ids (plines : List PipelineRecord)
    (max_start_time_msec : Int) : List String :=
  (plines.filter (fun p => pipeline_terminable p max_start_time_msec &&
    p.from_id_resolves)).map (fun p => p.pipelineId)

/-- The job ids put by one pass, in order: for each terminable pipeline
correlated in the mapping, the correlated record's id. -/
def terminable_put_ids (mapping : List (String × JobModel))
    (plines : List PipelineRecord) (max_start_time_msec : Int) : List Nat :=
  (plines.filter (fun p => pipeline_terminable p max_start_time_msec)).filterMap
    (fun p => (dict_lookup mapping p.pipelineId).map (fun j => j.job_id))

/-- Apply a sequence of `mark_job` persists to the datastore. -/
def apply_marks (jobs : List JobModel) (ids : List Nat) : List JobModel :=
  ids.foldl mark_job jobs

theorem apply_marks_append (jobs : List JobModel) (ids₁ ids₂ : List Nat) :
    apply_marks jobs (ids₁ ++ ids₂) = apply_marks (apply_marks jobs ids₁) ids₂ := by
  simp [apply_marks, List.foldl_append]

/-- The pipeline loop of `_clean_mapreduce` is fully described by
`terminable_put_ids`, `terminable_resolvable_ids` and `apply_marks`. -/
theorem reap_loop_spec (mapping : List (String × JobModel)) (m : Int)
    (plines : List PipelineRecord) (s : ReapState) :
    plines.foldl (process_pipeline mapping m) s =
      { jobs_store := apply_marks s.jobs_store (terminable_put_ids mapping plines m),
        put_job_ids := s.put_job_ids ++ terminable_put_ids mapping plines m,
        cleanup_calls := s.cleanup_calls ++ terminable_resolvable_ids plines m,
        num_cleaned := s.num_cleaned + (terminable_resolvable_ids plines m).length } := by
  induction plines generalizing s with
  | nil =>
    simp [terminable_put_ids, terminable_resolvable_ids, apply_marks]
  | cons p ps ih =>
    rw [List.foldl_cons, ih]
    simp only [terminable_put_ids, terminable_resolvable_ids, List.filter_cons]
    by_cases hterm : pipeline_terminable p m = true
    · simp only [hterm, Bool.true_and, if_pos]
      cases hlook : dict_lookup mapping p.pipelineId with
      | none =>
        by_cases hres : p.from_id_resolves = true
        · simp [process_pipeline, hterm, hlook, hres, List.filterMap_cons,
            apply_marks, List.append_assoc, Nat.add_comm, Nat.add_assoc,
            Nat.add_left_comm]
        · simp only [Bool.not_eq_true] at hres
          simp [process_pipeline, hterm, hlook, hres, List.filterMap_cons]
      | some j =>
        by_cases hres : p.from_id_resolves = true
        · simp [process_pipeline, hterm, hlook, hres, List.filterMap_cons,
            apply_marks, List.append_assoc, Nat.add_comm, Nat.add_assoc,
            Nat.add_left_comm]
        · simp only [Bool.not_eq_true] at hres
          simp [process_pipeline, hterm, hlook, hres, List.filterMap_cons,
            apply_marks, List.append_assoc]
    · simp only [Bool.not_eq_true] at hterm
      simp [process_pipeline, hterm, List.filter_cons]

/-- Marking is pointwise: a record is flagged in `apply_marks jobs ids`
iff its id occurs in `ids` (marking an already-true flag is idempotent,
and records with other ids are untouched). -/
theorem apply_marks_eq_map (jobs : List JobModel) (ids : List Nat) :
    apply_marks jobs ids = jobs.map (fun j =>
      if j.job_id ∈ ids then { j with has_been_cleaned_up := true } else j) := by
  induction ids generalizing jobs with
  | nil => simp [apply_marks]
  | cons i ids ih =>
    have hstep : apply_marks jobs (i :: ids) = apply_marks (mark_job jobs i) ids := rfl
    rw [hstep, ih, mark_job, List.map_map]
    apply List.map_congr_left
    intro j _
    by_cases hji : j.job_id = i
    · by_cases hmem : j.job_id ∈ ids <;>
        simp [Function.comp, hji, hmem, List.mem_cons]
    · by_cases hmem : j.job_id ∈ ids <;>
        simp [Function.comp, hji, hmem, List.mem_cons]

/-- Any record reachable through the `pipeline_id_to_job_instance` dict
comes from the fetched job list, is not yet cleaned up, started before
the threshold, and carries exactly the key it is filed under. -/
theorem dict_lookup_build_pipeline_mapping (jobs : List JobModel)
    (max_start_time_msec : Int) (k : String) (v : JobModel)
    (h : dict_lookup (build_pipeline_mapping jobs max_start_time_msec) k = some v) :
    v ∈ jobs ∧ v.has_been_cleaned_up = false ∧
      v.time_started_msec < max_start_time_msec ∧ v.root_pipeline_id = some k := by
  have general : ∀ (js : List JobModel) (d : List (String × JobModel)),
      dict_lookup (js.foldl (fun d job_instance =>
        if job_instance.time_started_msec < max_start_time_msec ∧
            job_instance.has_been_cleaned_up = false then
          match job_instance.root_pipeline_id with
          | some pipeline_id => (pipeline_id, job_instance) :: d
          | none => d
        else d) d) k = some v →
      (v ∈ js ∧ v.has_been_cleaned_up = false ∧
        v.time_started_msec < max_start_time_msec ∧ v.root_pipeline_id = some k) ∨
      dict_lookup d k = some v := by
    intro js
    induction js with
    | nil => intro d hd; exact Or.inr hd
    | cons j js ih =>
      intro d hd
      rw [List.foldl_cons] at hd
      rcases ih _ hd with hin | hrest
      · exact Or.inl ⟨List.mem_cons_of_mem _ hin.1, hin.2⟩
      · by_cases hcond : j.time_started_msec < max_start_time_msec ∧
            j.has_been_cleaned_up = false
        · rw [if_pos hcond] at hrest
          cases hroot : j.root_pipeline_id with
          | none => rw [hroot] at hrest; exact Or.inr hrest
          | some pid =>
            rw [hroot] at hrest
            by_cases hpid : pid = k
            · rw [dict_lookup, if_pos hpid] at hrest
              cases hrest
              exact Or.inl ⟨List.mem_cons_self _ _, hcond.2, hcond.1, hpid ▸ hroot⟩
            · rw [dict_lookup, if_neg hpid] at hrest
              exact Or.inr hrest
        · rw [if_neg hcond] at hrest
          exact Or.inr hrest
  rcases general jobs [] h with hin | hnil
  · exact hin
  · exact absurd hnil (by simp [dict_lookup])

/-- A terminable pipeline whose id resolves contributes its id to the
cleanup-call list. -/
theorem mem_terminable_resolvable_ids (plines : List PipelineRecord)
    (max_start_time_msec : Int) (p : PipelineRecord) (hp : p ∈ plines)
    (hterm : pipeline_terminable p max_start_time_msec = true)
    (hres : p.from_id_resolves = true) :
    p.pipelineId ∈ terminable_resolvable_ids plines max_start_time_msec := by
  unfold terminable_resolvable_ids
  exact List.mem_map_of_mem _ (List.mem_filter.mpr ⟨hp, by simp [hterm, hres]⟩)

/-- Conversely, every id on the cleanup-call list belongs to some
terminable pipeline that resolves. -/
theorem of_mem_terminable_resolvable_ids (plines : List PipelineRecord)
    (max_start_time_msec : Int) (pid : String)
    (h : pid ∈ terminable_resolvable_ids plines max_start_time_msec) :
    ∃ q ∈ plines, pipeline_terminable q max_start_time_msec = true ∧
      q.from_id_resolves = true ∧ q.pipelineId = pid := by
  unfold terminable_resolvable_ids at h
  rcases List.mem_map.mp h with ⟨q, hq, hqid⟩
  rcases List.mem_filter.mp hq with ⟨hqmem, hcond⟩
  rcases Bool.and_eq_true_iff.mp hcond with ⟨h1, h2⟩
  exact ⟨q, hqmem, h1, h2, hqid⟩

/-- A terminable pipeline correlated in the mapping contributes the
correlated record's id to the put list. -/
theorem mem_terminable_put_ids (mapping : List (String × JobModel))
    (plines : List PipelineRecord) (max_start_time_msec : Int)
    (p : PipelineRecord) (j : JobModel) (hp : p ∈ plines)
    (hterm : pipeline_terminable p max_start_time_msec = true)
    (hlook : dict_lookup mapping p.pipelineId = some j) :
    j.job_id ∈ terminable_put_ids mapping plines max_start_time_msec := by
  unfold terminable_put_ids
  apply List.mem_filterMap.mpr
  exact ⟨p, List.mem_filter.mpr ⟨hp, hterm⟩, by rw [hlook]; rfl⟩

/-- Conversely, every id on the put list is the id of a record
correlated to some terminable pipeline. -/
theorem of_mem_terminable_put_ids (mapping : List (String × JobModel))
    (plines : List PipelineRecord) (max_start_time_msec : Int) (i : Nat)
    (h : i ∈ terminable_put_ids mapping plines max_start_time_msec) :
    ∃ q ∈ plines, ∃ j : JobModel,
      pipeline_terminable q max_start_time_msec = true ∧
      dict_lookup mapping q.pipelineId = some j ∧ j.job_id = i := by
  unfold terminable_put_ids at h
  rcases List.mem_filterMap.mp h with ⟨q, hq, hqmap⟩
  rcases List.mem_filter.mp hq with ⟨hqmem, hcond⟩
  cases hlook : dict_lookup mapping q.pipelineId with
  | none => rw [hlook] at hqmap; cases hqmap
  | some j =>
    rw [hlook] at hqmap
    exact ⟨q, hqmem, j, hcond, hlook, by cases hqmap; rfl⟩

/-- `_clean_mapreduce` in closed form: every observable effect of one
pass, expressed through the loop characterisation. -/
theorem clean_mapreduce_eq (env : CronEnv) (recency_msec : Int) :
    clean_mapreduce env recency_msec =
      { jobs_store := apply_marks env.recent_jobs
          (terminable_put_ids
            (build_pipeline_mapping env.recent_jobs (env.now_msec - recency_msec))
            env.root_pipelines (env.now_msec - recency_msec)),
        put_job_ids := terminable_put_ids
          (build_pipeline_mapping env.recent_jobs (env.now_msec - recency_msec))
          env.root_pipelines (env.now_msec - recency_msec),
        cleanup_calls := terminable_resolvable_ids env.root_pipelines
          (env.now_msec - recency_msec),
        num_cleaned := (terminable_resolvable_ids env.root_pipelines
          (env.now_msec - recency_msec)).length,
        enqueued_params :=
          if env.unfinished_cleanup_jobs_exist then []
          else [(MAPPER_PARAM_MAX_START_TIME_MSEC, env.now_msec - recency_msec)] } := by
  simp only [clean_mapreduce]
  rw [reap_loop_spec]
  simp

/-- After the marks of a pass, every stored record whose id was put
carries a true `has_been_cleaned_up` flag. -/
theorem apply_marks_flag (jobs : List JobModel) (ids : List Nat) (i : Nat)
    (hi : i ∈ ids) :
    ∀ j' ∈ apply_marks jobs ids, j'.job_id = i → j'.has_been_cleaned_up = true := by
  intro j' hj' hid
  rw [apply_marks_eq_map] at hj'
  rcases List.mem_map.mp hj' with ⟨j0, _, rfl⟩
  by_cases hmem : j0.job_id ∈ ids
  · simp [hmem]
  · rw [if_neg hmem] at hid ⊢
    exact absurd (hid ▸ hi) hmem

/-- A record whose id was never put survives the pass unchanged. -/
theorem apply_marks_unchanged (jobs : List JobModel) (ids : List Nat)
    (j : JobModel) (hj : j ∈ jobs) (h : j.job_id ∉ ids) :
    j ∈ apply_marks jobs ids := by
  rw [apply_marks_eq_map]
  exact List.mem_map.mpr ⟨j, hj, by rw [if_neg h]⟩

/-- With pairwise-distinct `job_id`s, a record is determined by its id. -/
theorem job_id_inj (jobs : List JobModel)
    (hnodup : (jobs.map JobModel.job_id).Nodup) (j1 j2 : JobModel)
    (h1 : j1 ∈ jobs) (h2 : j2 ∈ jobs) (h : j1.job_id = j2.job_id) : j1 = j2 :=
  List.inj_on_of_nodup_map hnodup h1 h2 h

/-- The actions one pass takes on a pipeline the cleanup guard accepts:
its id is passed to `cleanup()` when `Pipeline.from_id` resolves, and a
correlated job record is put with its persisted flag set. -/
theorem terminable_cleanup_actions (env : CronEnv) (recency_msec : Int)
    (p : PipelineRecord) (hp : p ∈ env.root_pipelines)
    (hterm : pipeline_terminable p (env.now_msec - recency_msec) = true) :
    (p.from_id_resolves = true →
      p.pipelineId ∈ (clean_mapreduce env recency_msec).cleanup_calls) ∧
    (∀ j : JobModel,
      dict_lookup (build_pipeline_mapping env.recent_jobs
        (env.now_msec - recency_msec)) p.pipelineId = some j →
      j.job_id ∈ (clean_mapreduce env recency_msec).put_job_ids ∧
      ∀ j' ∈ (clean_mapreduce env recency_msec).jobs_store,
        j'.job_id = j.job_id → j'.has_been_cleaned_up = true) := by
  rw [clean_mapreduce_eq]
  refine ⟨fun hres => ?_, fun j hlook => ⟨?_, ?_⟩⟩
  · exact mem_terminable_resolvable_ids _ _ p hp hterm hres
  · exact mem_terminable_put_ids _ _ _ p j hp hterm hlook
  · exact apply_marks_flag _ _ _ (mem_terminable_put_ids _ _ _ p j hp hterm hlook)

/-- C4: at the end of every reap pass, an unfinished CleanupAggregator
instance means zero new aggregator instances are enqueued; otherwise
exactly one is enqueued, its `max_start_time_msec` parameter being the
value `now - minAgeMsec` computed at the start of the pass. -/
theorem C4_single_flight_enqueue (env : CronEnv) (recency_msec : Int) :
    (env.unfinished_cleanup_jobs_exist = true →
      (clean_mapreduce env recency_msec).enqueued_params = []) ∧
    (env.unfinished_cleanup_jobs_exist = false →
      (clean_mapreduce env recency_msec).enqueued_params =
        [(MAPPER_PARAM_MAX_START_TIME_MSEC, env.now_msec - recency_msec)]) := by
  rw [clean_mapreduce_eq]
  constructor <;> intro h <;> simp [h]

theorem C4_single_flight_enqueue_witness :
    (CronEnv.mk 100 [] [] false).unfinished_cleanup_jobs_exist = false ∧
    (clean_mapreduce (CronEnv.mk 100 [] [] false) 10).enqueued_params =
      [(MAPPER_PARAM_MAX_START_TIME_MSEC, 90)] := by
  refine ⟨rfl, ?_⟩
  have h := (C4_single_flight_enqueue (CronEnv.mk 100 [] [] false) 10).2 rfl
  simpa using h

/-- C7: each stuck-job reporter invocation sends exactly one alert; an
empty stuck-job list yields the all-clear message with zero job detail
blocks, and a nonempty list of N jobs yields an alert whose header
states the total N and whose body holds min(N, 50) detail blocks. -/
theorem C7_stuck_job_mailer (failed_jobs : List StuckJob) :
    (JobStatusMailerHandler.sent_mail failed_jobs).length = 1 ∧
    (failed_jobs = [] →
      JobStatusMailerHandler.sent_mail failed_jobs =
        [{ subject := "MapReduce status report", parts := [EmailPart.all_clear] }] ∧
      (JobStatusMailerHandler.sent_mail failed_jobs).map
        (fun e => (e.parts.filter is_job_block).length) = [0]) ∧
    (failed_jobs ≠ [] →
      (JobStatusMailerHandler.sent_mail failed_jobs).map
        (fun e => (e.subject, e.parts.head?, (e.parts.filter is_job_block).length)) =
        [("MapReduce failure alert",
          some (EmailPart.header failed_jobs.length 50),
          min failed_jobs.length 50)]) := by
  refine ⟨?_, fun hempty => ?_, fun hne => ?_⟩
  · by_cases h : failed_jobs.isEmpty <;> simp [JobStatusMailerHandler.sent_mail, h]
  · subst hempty
    constructor <;> simp [JobStatusMailerHandler.sent_mail, is_job_block]
  · have h : failed_jobs.isEmpty = false := by
      simpa [List.isEmpty_iff] using hne
    simp [JobStatusMailerHandler.sent_mail, h, is_job_block, List.filter_map,
      Function.comp, Nat.min_comm]
    have hall : ∀ x ∈ List.take 50 (List.map EmailPart.job_block failed_jobs),
        is_job_block x = true := by
      intro x hx
      rcases List.mem_map.mp (List.mem_of_mem_take hx) with ⟨j, _, rfl⟩
      rfl
    rw [List.filter_eq_self.mpr hall]
    simp [Nat.min_comm]

theorem C7_stuck_job_mailer_witness :
    (List.replicate 60 (StuckJob.mk "j") ≠ ([] : List StuckJob)) ∧
    (JobStatusMailerHandler.sent_mail (List.replicate 60 (StuckJob.mk "j"))).map
      (fun e => (e.subject, e.parts.head?, (e.parts.filter is_job_block).length)) =
      [("MapReduce failure alert", some (EmailPart.header 60 50), 50)] := by
  have h := (C7_stuck_job_mailer (List.replicate 60 (StuckJob.mk "j"))).2.2
    (by simp)
  exact ⟨by simp, by simpa using h⟩

/-- C8: the CleanupAggregator map step deletes a run-level record and
yields one `(mr_state_deleted, 1)` tally iff its result status is
`success` and its start timestamp precedes the threshold; otherwise it
is kept and one `(mr_state_remaining, 1)` tally is yielded. -/
theorem C8_run_state_cleanup_rule (max_start_time_msec : Int)
    (result_status : String) (start_time_msec : Int) :
    (result_status = "success" ∧ start_time_msec < max_start_time_msec →
      JobCleanupManager.map max_start_time_msec
        (MapReduceEntity.mapreduce_state result_status start_time_msec) =
        (true, [("mr_state_deleted", 1)])) ∧
    (¬ (result_status = "success" ∧ start_time_msec < max_start_time_msec) →
      JobCleanupManager.map max_start_time_msec
        (MapReduceEntity.mapreduce_state result_status start_time_msec) =
        (false, [("mr_state_remaining", 1)])) := by
  constructor <;> intro h
  · simp only [JobCleanupManager.map, if_pos h]
  · simp only [JobCleanupManager.map, if_neg h]

theorem C8_run_state_cleanup_rule_witness :
    (("success" : String) = "success" ∧ (0 : Int) < 10) ∧
    JobCleanupManager.map 10 (MapReduceEntity.mapreduce_state "success" 0) =
      (true, [("mr_state_deleted", 1)]) :=
  ⟨⟨rfl, by decide⟩,
    (C8_run_state_cleanup_rule 10 "success" 0).1 ⟨rfl, by decide⟩⟩

/-- C9 as stated is false: a non-deleted shard-level record is tallied
under the key `mr_state_remaining`, exactly the run-level remaining
key, not a distinct one. -/
theorem C9_counterexample :
    JobCleanupManager.map 10 (MapReduceEntity.shard_state "failed" 0) =
      (false, [("mr_state_remaining", 1)]) ∧
    JobCleanupManager.map 10 (MapReduceEntity.mapreduce_state "failed" 0) =
      (false, [("mr_state_remaining", 1)]) := by
  constructor <;> rfl

/-- C9 (amended): a shard-level record is deleted with one
`(shard_state_deleted, 1)` tally iff its result status is `success`
and its own update timestamp precedes the threshold; otherwise it
yields `(mr_state_remaining, 1)` — the same key as run-level remaining
records, so the reduce step aggregates the two remaining counts
together, while deleted counts keep per-kind keys and are logged as
delete counts distinctly from remaining counts. -/
theorem C9_shard_state_cleanup_rule (max_start_time_msec : Int)
    (result_status : String) (update_time_msec : Int) :
    (result_status = "success" ∧ update_time_msec < max_start_time_msec →
      JobCleanupManager.map max_start_time_msec
        (MapReduceEntity.shard_state result_status update_time_msec) =
        (true, [("shard_state_deleted", 1)])) ∧
    (¬ (result_status = "success" ∧ update_time_msec < max_start_time_msec) →
      JobCleanupManager.map max_start_time_msec
        (MapReduceEntity.shard_state result_status update_time_msec) =
        (false, [("mr_state_remaining", 1)])) ∧
    (∀ values : List Nat,
      JobCleanupManager.reduce "shard_state_deleted" values =
        ("Delete count", values.sum) ∧
      JobCleanupManager.reduce "mr_state_remaining" values =
        ("Entities remaining count", values.sum)) := by
  refine ⟨fun h => ?_, fun h => ?_, fun values => ⟨?_, ?_⟩⟩
  · simp only [JobCleanupManager.map, if_pos h]
  · simp only [JobCleanupManager.map, if_neg h]
  · simp only [JobCleanupManager.reduce, if_pos (by decide :
      str_ends_with "shard_state_deleted" "_deleted" = true)]
  · simp only [JobCleanupManager.reduce, if_neg (by decide :
      ¬ str_ends_with "mr_state_remaining" "_deleted" = true)]

theorem C9_shard_state_cleanup_rule_witness :
    (("success" : String) = "success" ∧ (0 : Int) < 10) ∧
    JobCleanupManager.map 10 (MapReduceEntity.shard_state "success" 0) =
      (true, [("shard_state_deleted", 1)]) ∧
    JobCleanupManager.reduce "shard_state_deleted" [1, 1] = ("Delete count", 2) := by
  have h := C9_shard_state_cleanup_rule 10 "success" 0
  exact ⟨⟨rfl, by decide⟩, h.1 ⟨rfl, by decide⟩, by simpa using (h.2.2 [1, 1]).1⟩

/-- C1 as stated is false: a pipeline with status `done` but a recent
reported start time (start 95 against threshold 100 - 10 = 90) is left
untouched by the pass — the status-certain branch only fires when no
start time is reported — so the correlated record is not marked and no
cleanup is requested.  Fields: CronEnv is
(now, recent jobs, root pipelines, unfinished-aggregator flag); JobModel
is (job id, start time, cleaned-up flag, root pipeline id);
PipelineRecord is (id, status, currentAttempt, maxAttempts,
startTimeMs, from_id resolves). -/
theorem C1_counterexample :
    (clean_mapreduce
      ⟨100, [⟨1, 50, false, some "p1"⟩],
        [⟨"p1", "done", 1, 2, some 95, true⟩], true⟩ 10).cleanup_calls = [] ∧
    (clean_mapreduce
      ⟨100, [⟨1, 50, false, some "p1"⟩],
        [⟨"p1", "done", 1, 2, some 95, true⟩], true⟩ 10).put_job_ids = [] := by
  constructor <;> rfl

/-- C1 (amended): for every pipeline whose status is `done` or
`aborted`, or whose current attempt count exceeds its max attempt
count, AND which reports no start time, one reap pass marks the
correlated job record cleanedUp=true (persisting it) and, when the
pipeline registry resolves the id, requests pipeline cleanup.  A
status-terminal pipeline that does report a start time is acted on
only through the time-based branch. -/
theorem C1_status_terminal_cleanup (env : CronEnv) (recency_msec : Int)
    (p : PipelineRecord) (hp : p ∈ env.root_pipelines)
    (hterm : job_definitely_terminated p = true)
    (hnostart : p.startTimeMs = none) :
    (p.from_id_resolves = true →
      p.pipelineId ∈ (clean_mapreduce env recency_msec).cleanup_calls) ∧
    (∀ j : JobModel,
      dict_lookup (build_pipeline_mapping env.recent_jobs
        (env.now_msec - recency_msec)) p.pipelineId = some j →
      j.job_id ∈ (clean_mapreduce env recency_msec).put_job_ids ∧
      ∀ j' ∈ (clean_mapreduce env recency_msec).jobs_store,
        j'.job_id = j.job_id → j'.has_been_cleaned_up = true) := by
  apply terminable_cleanup_actions env recency_msec p hp
  simp [pipeline_terminable, job_started_too_long_ago, have_start_time,
    hnostart, hterm]

theorem C1_status_terminal_cleanup_witness :
    "p1" ∈ (clean_mapreduce
      ⟨100, [⟨1, 50, false, some "p1"⟩],
        [⟨"p1", "aborted", 1, 2, none, true⟩], true⟩ 10).cleanup_calls ∧
    1 ∈ (clean_mapreduce
      ⟨100, [⟨1, 50, false, some "p1"⟩],
        [⟨"p1", "aborted", 1, 2, none, true⟩], true⟩ 10).put_job_ids := by
  have h := C1_status_terminal_cleanup
    ⟨100, [⟨1, 50, false, some "p1"⟩],
      [⟨"p1", "aborted", 1, 2, none, true⟩], true⟩ 10
    ⟨"p1", "aborted", 1, 2, none, true⟩ (by decide) (by decide) rfl
  exact ⟨h.1 rfl, (h.2 ⟨1, 50, false, some "p1"⟩ (by decide)).1⟩

/-- C2 as stated is false: the mapreduce-cleanup endpoint has no
cron-or-superadmin guard, so a caller with neither the cron header nor
super-admin rights still runs the full reaping logic (here the pass
issues a cleanup call for pipeline `p1` instead of being rejected). -/
theorem C2_counterexample :
    require_cron_or_superadmin ⟨false, false⟩ = false ∧
    CronMapreduceCleanupHandler.get ⟨false, false⟩
      ⟨200000000, [], [⟨"p1", "done", 1, 2, none, true⟩], true⟩ =
      Except.ok ⟨[], [], ["p1"], 1, []⟩ := by
  constructor <;> rfl

/-- C2 (amended): the stuck-job reporter endpoint rejects every caller
that is neither the platform cron invoker nor an authenticated
super-administrator before any reporting logic runs, while the
mapreduce-cleanup endpoint has no such guard and runs the reaping
logic for every caller. -/
theorem C2_auth_guard (ctx : RequestContext) (failed_jobs : List StuckJob)
    (env : CronEnv) :
    (require_cron_or_superadmin ctx = false →
      JobStatusMailerHandler.get ctx failed_jobs =
        Except.error "You do not have the credentials to access this page.") ∧
    (require_cron_or_superadmin ctx = true →
      JobStatusMailerHandler.get ctx failed_jobs =
        Except.ok (JobStatusMailerHandler.sent_mail failed_jobs)) ∧
    CronMapreduceCleanupHandler.get ctx env =
      Except.ok (clean_mapreduce env MAX_MAPREDUCE_METADATA_RETENTION_MSECS) := by
  refine ⟨fun h => ?_, fun h => ?_, rfl⟩ <;>
    simp [JobStatusMailerHandler.get, h]

theorem C2_auth_guard_witness :
    require_cron_or_superadmin ⟨false, false⟩ = false ∧
    JobStatusMailerHandler.get ⟨false, false⟩ [] =
      Except.error "You do not have the credentials to access this page." :=
  ⟨rfl, (C2_auth_guard ⟨false, false⟩ [] ⟨0, [], [], true⟩).1 rfl⟩

/-- C5: a pipeline reporting a start time older than `now - minAgeMsec`
is judged terminable by the time-based branch alone, whatever its
status and attempt counts: when its id resolves, cleanup is requested
for it, and any correlated job record is marked and persisted with
cleanedUp=true. -/
theorem C5_time_based_presumption (env : CronEnv) (recency_msec : Int)
    (p : PipelineRecord) (t : Int) (hp : p ∈ env.root_pipelines)
    (hstart : p.startTimeMs = some t)
    (hold : t < env.now_msec - recency_msec)
    (hres : p.from_id_resolves = true) :
    p.pipelineId ∈ (clean_mapreduce env recency_msec).cleanup_calls ∧
    (∀ j : JobModel,
      dict_lookup (build_pipeline_mapping env.recent_jobs
        (env.now_msec - recency_msec)) p.pipelineId = some j →
      j.job_id ∈ (clean_mapreduce env recency_msec).put_job_ids ∧
      ∀ j' ∈ (clean_mapreduce env recency_msec).jobs_store,
        j'.job_id = j.job_id → j'.has_been_cleaned_up = true) := by
  have hterm : pipeline_terminable p (env.now_msec - recency_msec) = true := by
    simp [pipeline_terminable, job_started_too_long_ago, hstart, hold]
  have h := terminable_cleanup_actions env recency_msec p hp hterm
  exact ⟨h.1 hres, h.2⟩

theorem C5_time_based_presumption_witness :
    "p1" ∈ (clean_mapreduce
      ⟨100, [⟨1, 50, false, some "p1"⟩],
        [⟨"p1", "running", 1, 2, some 40, true⟩], true⟩ 10).cleanup_calls ∧
    1 ∈ (clean_mapreduce
      ⟨100, [⟨1, 50, false, some "p1"⟩],
        [⟨"p1", "running", 1, 2, some 40, true⟩], true⟩ 10).put_job_ids := by
  have h := C5_time_based_presumption
    ⟨100, [⟨1, 50, false, some "p1"⟩],
      [⟨"p1", "running", 1, 2, some 40, true⟩], true⟩ 10
    ⟨"p1", "running", 1, 2, some 40, true⟩ 40 (by decide) rfl (by decide) rfl
  exact ⟨h.1, (h.2 ⟨1, 50, false, some "p1"⟩ (by decide)).1⟩

/-- C3: a record already flagged `cleanedUp=true` never enters the
pipeline-to-job mapping of a pass, and a second reap pass over the
state persisted by the first (with no other change) never puts a job
id the first pass already put — only cleanup calls may recur. -/
theorem C3_cleaned_up_at_most_once (env : CronEnv) (recency_msec : Int) :
    (∀ (jobs : List JobModel) (m : Int) (k : String) (j : JobModel),
      dict_lookup (build_pipeline_mapping jobs m) k = some j →
      j.has_been_cleaned_up = false) ∧
    (∀ i : Nat,
      i ∈ (clean_mapreduce
        { env with recent_jobs := (clean_mapreduce env recency_msec).jobs_store }
        recency_msec).put_job_ids →
      i ∉ (clean_mapreduce env recency_msec).put_job_ids) := by
  constructor
  · intro jobs m k j h
    exact (dict_lookup_build_pipeline_mapping jobs m k j h).2.1
  · intro i hi2 hi1
    have he1 := clean_mapreduce_eq env recency_msec
    rw [clean_mapreduce_eq] at hi2
    dsimp only at hi2
    rcases of_mem_terminable_put_ids _ _ _ i hi2 with ⟨q, hq, j, hqterm, hlook, hjid⟩
    have hj := dict_lookup_build_pipeline_mapping _ _ _ _ hlook
    have hstore : (clean_mapreduce env recency_msec).jobs_store =
        apply_marks env.recent_jobs ((clean_mapreduce env recency_msec).put_job_ids) := by
      rw [he1]
    have hflag := apply_marks_flag env.recent_jobs
      ((clean_mapreduce env recency_msec).put_job_ids) i hi1 j
      (hstore ▸ hj.1) hjid
    rw [hj.2.1] at hflag
    exact Bool.false_ne_true hflag

theorem C3_cleaned_up_at_most_once_witness :
    1 ∈ (clean_mapreduce
      { (⟨100, [⟨1, 50, false, some "p"⟩, ⟨2, 60, false, some "p"⟩],
          [⟨"p", "done", 1, 2, none, true⟩], true⟩ : CronEnv) with
        recent_jobs := (clean_mapreduce
          ⟨100, [⟨1, 50, false, some "p"⟩, ⟨2, 60, false, some "p"⟩],
            [⟨"p", "done", 1, 2, none, true⟩], true⟩ 10).jobs_store }
      10).put_job_ids ∧
    1 ∉ (clean_mapreduce
      ⟨100, [⟨1, 50, false, some "p"⟩, ⟨2, 60, false, some "p"⟩],
        [⟨"p", "done", 1, 2, none, true⟩], true⟩ 10).put_job_ids := by
  refine ⟨by decide, ?_⟩
  exact (C3_cleaned_up_at_most_once
    ⟨100, [⟨1, 50, false, some "p"⟩, ⟨2, 60, false, some "p"⟩],
      [⟨"p", "done", 1, 2, none, true⟩], true⟩ 10).2 1 (by decide)

/-- C6: a pipeline with no reported start time and a non-terminal
status (not done, not aborted, attempts not exhausted) is left alone
by the pass: no cleanup call carries its id, and a job record
correlated to it is neither put nor altered in the store. -/
theorem C6_no_start_nonterminal_noop (env : CronEnv) (recency_msec : Int)
    (p : PipelineRecord) (_hp : p ∈ env.root_pipelines)
    (hnostart : p.startTimeMs = none)
    (hnterm : job_definitely_terminated p = false)
    (huniq : ∀ q ∈ env.root_pipelines, q.pipelineId = p.pipelineId → q = p)
    (hnodup : (env.recent_jobs.map JobModel.job_id).Nodup) :
    p.pipelineId ∉ (clean_mapreduce env recency_msec).cleanup_calls ∧
    ∀ j ∈ env.recent_jobs, j.root_pipeline_id = some p.pipelineId →
      j.job_id ∉ (clean_mapreduce env recency_msec).put_job_ids ∧
      j ∈ (clean_mapreduce env recency_msec).jobs_store := by
  have hterm : pipeline_terminable p (env.now_msec - recency_msec) = false := by
    simp [pipeline_terminable, job_started_too_long_ago, have_start_time,
      hnostart, hnterm]
  constructor
  · intro hmem
    rw [clean_mapreduce_eq] at hmem
    dsimp only at hmem
    rcases of_mem_terminable_resolvable_ids _ _ _ hmem with ⟨q, hq, hqterm, _, hqid⟩
    rw [huniq q hq hqid, hterm] at hqterm
    exact Bool.false_ne_true hqterm
  · intro j hj hroot
    have hnput : j.job_id ∉ (clean_mapreduce env recency_msec).put_job_ids := by
      intro hmem
      rw [clean_mapreduce_eq] at hmem
      dsimp only at hmem
      rcases of_mem_terminable_put_ids _ _ _ _ hmem with ⟨q, hq, v, hqterm, hlook, hvid⟩
      have hv := dict_lookup_build_pipeline_mapping _ _ _ _ hlook
      have hveq : v = j := job_id_inj env.recent_jobs hnodup v j hv.1 hj hvid
      have hqid : q.pipelineId = p.pipelineId := by
        have h1 := hv.2.2.2
        rw [hveq, hroot] at h1
        exact (Option.some.inj h1).symm
      rw [huniq q hq hqid, hterm] at hqterm
      exact Bool.false_ne_true hqterm
    refine ⟨hnput, ?_⟩
    rw [clean_mapreduce_eq] at hnput ⊢
    dsimp only at hnput ⊢
    exact apply_marks_unchanged _ _ _ hj hnput

theorem C6_no_start_nonterminal_noop_witness :
    "p1" ∉ (clean_mapreduce
      ⟨100, [⟨1, 50, false, some "p1"⟩],
        [⟨"p1", "running", 1, 2, none, true⟩], true⟩ 10).cleanup_calls ∧
    1 ∉ (clean_mapreduce
      ⟨100, [⟨1, 50, false, some "p1"⟩],
        [⟨"p1", "running", 1, 2, none, true⟩], true⟩ 10).put_job_ids ∧
    (⟨1, 50, false, some "p1"⟩ : JobModel) ∈ (clean_mapreduce
      ⟨100, [⟨1, 50, false, some "p1"⟩],
        [⟨"p1", "running", 1, 2, none, true⟩], true⟩ 10).jobs_store := by
  have h := C6_no_start_nonterminal_noop
    ⟨100, [⟨1, 50, false, some "p1"⟩],
      [⟨"p1", "running", 1, 2, none, true⟩], true⟩ 10
    ⟨"p1", "running", 1, 2, none, true⟩ (by decide) rfl (by decide)
    (by decide) (by decide)
  have h2 := h.2 ⟨1, 50, false, some "p1"⟩ (by decide) rfl
  exact ⟨h.1, h2.1, h2.2⟩

/-- C10: a terminable pipeline whose id the registry cannot resolve
still has its correlated job record marked and persisted, gets no
cleanup call, and does not bump `num_cleaned` — which always equals
the number of terminable pipelines whose id resolved, and can thus be
smaller than the number of job records marked. -/
theorem C10_unresolved_pipeline_counts (env : CronEnv) (recency_msec : Int)
    (p : PipelineRecord) (j : JobModel) (hp : p ∈ env.root_pipelines)
    (hterm : pipeline_terminable p (env.now_msec - recency_msec) = true)
    (hres : p.from_id_resolves = false)
    (huniq : ∀ q ∈ env.root_pipelines, q.pipelineId = p.pipelineId → q = p)
    (hlook : dict_lookup (build_pipeline_mapping env.recent_jobs
      (env.now_msec - recency_msec)) p.pipelineId = some j) :
    j.job_id ∈ (clean_mapreduce env recency_msec).put_job_ids ∧
    (∀ j' ∈ (clean_mapreduce env recency_msec).jobs_store,
      j'.job_id = j.job_id → j'.has_been_cleaned_up = true) ∧
    p.pipelineId ∉ (clean_mapreduce env recency_msec).cleanup_calls ∧
    (clean_mapreduce env recency_msec).num_cleaned =
      (terminable_resolvable_ids env.root_pipelines
        (env.now_msec - recency_msec)).length := by
  have hact := terminable_cleanup_actions env recency_msec p hp hterm
  have hput := hact.2 j hlook
  refine ⟨hput.1, hput.2, ?_, ?_⟩
  · intro hmem
    rw [clean_mapreduce_eq] at hmem
    dsimp only at hmem
    rcases of_mem_terminable_resolvable_ids _ _ _ hmem with ⟨q, hq, _, hqres, hqid⟩
    rw [huniq q hq hqid, hres] at hqres
    exact Bool.false_ne_true hqres
  · rw [clean_mapreduce_eq]

theorem C10_unresolved_pipeline_counts_witness :
    1 ∈ (clean_mapreduce
      ⟨100, [⟨1, 50, false, some "p1"⟩],
        [⟨"p1", "done", 1, 2, none, false⟩], true⟩ 10).put_job_ids ∧
    "p1" ∉ (clean_mapreduce
      ⟨100, [⟨1, 50, false, some "p1"⟩],
        [⟨"p1", "done", 1, 2, none, false⟩], true⟩ 10).cleanup_calls ∧
    (clean_mapreduce
      ⟨100, [⟨1, 50, false, some "p1"⟩],
        [⟨"p1", "done", 1, 2, none, false⟩], true⟩ 10).num_cleaned = 0 ∧
    (clean_mapreduce
      ⟨100, [⟨1, 50, false, some "p1"⟩],
        [⟨"p1", "done", 1, 2, none, false⟩], true⟩ 10).put_job_ids = [1] := by
  have h := C10_unresolved_pipeline_counts
    ⟨100, [⟨1, 50, false, some "p1"⟩],
      [⟨"p1", "done", 1, 2, none, false⟩], true⟩ 10
    ⟨"p1", "done", 1, 2, none, false⟩ ⟨1, 50, false, some "p1"⟩
    (by decide) (by decide) rfl (by decide) (by decide)
  exact ⟨h.1, h.2.2.1, by decide, by decide⟩
